import Mathlib

/-!
Verification of the experience-engine consolidation pipeline.

This file gives a shallow embedding, in Lean 4, of the core of the
repository: the episodic log (core.py), the heuristic tagger and
confidence scorer (core.py), the reflection stage (reflection.py) and the
synthesis stage (synthesis.py), together with the context formatters.

Modelling conventions, used throughout:

* Machine text is `String` / `List Char`.  The fixed regular expressions of
  the source (all of the shape `\b(alt1|alt2|...)\b`, where an alternative
  is a literal possibly containing one `.?`) are embedded as explicit
  alternative lists over a token type, with word boundaries evaluated
  exactly as the `re` module does on such patterns.  Word characters are
  modelled as ASCII alphanumerics plus underscore (the source texts the
  claims quantify over are ASCII; Unicode word classes are out of scope).
* Confidence scores are represented in hundredths as `Int`.  The source
  computes `round(max(0.3, min(0.95, 0.85 - hedges*0.08 + bonus)), 2)`;
  every candidate value is an integer number of hundredths, so the final
  two-decimal rounding is the identity and the hundredths integer is an
  exact representation of the float the source returns.
* JSON values (the model-output structures and the persisted documents)
  are an inductive `Json` with rational numerals; `json_loads` is an
  executable parser for the JSON accepted by `json.loads` (the exotic
  corners `NaN`/`Infinity`, surrogate escape pairing and Unicode word
  semantics are not modelled; no claim depends on them).
* The on-disk stores are modelled at record granularity: the episodic log
  file is `Option (List (Option Entry))` (`none` = file absent; a `none`
  line = a blank line, which `load_log`/`log_count` skip), and the belief /
  pattern / tension documents are typed structures mirroring exactly the
  objects `_save_beliefs` / `_save_synthesis` write.  `json.dumps` writes
  one newline-free line per record and `json.loads` inverts it, so append
  corresponds to list append.
* Nondeterministic inputs of the source (uuid, wall-clock timestamp, the
  text returned by the model adapter) are explicit parameters.  The runs
  `run_reflection` / `run_synthesis` return `Option` results: `none`
  models a raised Python exception, `some` a normal return carrying the
  produced value, the stores after the run, and a flag recording whether
  the model adapter was invoked.
-/

/-! ## Python-style string helpers -/

/-- Whitespace stripped by Python `str.strip()`. -/
def pyIsSpace (c : Char) : Bool :=
  c == ' ' || c == '\t' || c == '\n' || c == '\r' || c == '\x0b' || c == '\x0c'

/-- Python `str.strip()`. -/
def pyStrip (s : String) : String :=
  String.mk (((s.data.dropWhile pyIsSpace).reverse.dropWhile pyIsSpace).reverse)

/-- The backtick character (written by code point throughout). -/
def tickChar : Char := Char.ofNat 96

def isTick (c : Char) : Bool := c == tickChar

/-- Python `str.rstrip` of all trailing backticks. -/
def pyRstripTicks (s : String) : String :=
  String.mk ((s.data.reverse.dropWhile isTick).reverse)

/-- Python `str.lower()` (ASCII model; the claims quantify over ASCII text). -/
def pyLower (s : String) : List Char := s.data.map Char.toLower

/-- Python `str.split()`: whitespace-run splitting, dropping empty parts.
The accumulator holds the current word reversed. -/
def wordsGo (acc : List Char) : List Char → List (List Char)
  | [] => if acc.isEmpty then [] else [acc.reverse]
  | c :: rest =>
    if pyIsSpace c then
      (if acc.isEmpty then wordsGo [] rest else acc.reverse :: wordsGo [] rest)
    else wordsGo (c :: acc) rest

/-- `len(s.split())`. -/
def pyWordCount (s : String) : Nat := (wordsGo [] s.data).length

/-! ## A tiny regex evaluator for the fixed patterns of core.py

Every pattern in the source is `\b(a1|a2|...)\b` where each alternative is
a literal string except `fine.?tun`, which contains one `.?`.  An
alternative is a `List RTok`; `anyOpt` is `.?` (zero or one arbitrary
character other than a newline). -/

inductive RTok where
  | lit (c : Char)
  | anyOpt
deriving DecidableEq

/-- Regex word character, `\w` (ASCII model). -/
def isWordChar (c : Char) : Bool := c.isAlphanum || c == '_'

def optWord : Option Char → Bool
  | none => false
  | some c => isWordChar c

/-- `\b` holds between two (optional) characters iff exactly one side is a
word character; a text edge counts as a non-word side. -/
def wbound (a b : Option Char) : Bool := optWord a != optWord b

/-- Match the token list against a prefix of `t`; `last` is the character
just before the current position.  Returns true iff some way of resolving
the optional tokens consumes a prefix after which `\b` holds. -/
def mrun : List RTok → Option Char → List Char → Bool
  | [], last, rest => wbound last rest.head?
  | .lit c :: ts, _, d :: rest => d == c && mrun ts (some d) rest
  | .lit _ :: _, _, [] => false
  | .anyOpt :: ts, last, rest =>
    (match rest with
     | d :: rest2 => d != '\n' && mrun ts (some d) rest2
     | [] => false) || mrun ts last rest

/-- One match attempt at the current position: `\b`, the alternative, `\b`. -/
def matchHere (alt : List RTok) (prev : Option Char) (t : List Char) : Bool :=
  wbound prev t.head? && mrun alt prev t

/-- `re.search` of a single alternative: try every position. -/
def searchFrom (alt : List RTok) : Option Char → List Char → Bool
  | _, [] => false
  | prev, d :: rest => matchHere alt prev (d :: rest) || searchFrom alt (some d) rest

/-- `re.search` of `\b(a1|...|ak)\b`. -/
def regexHit (alts : List (List RTok)) (t : List Char) : Bool :=
  alts.any (fun a => searchFrom a none t)

/-- Literal alternative. -/
def lw (s : String) : List RTok := s.data.map RTok.lit

/-! ## core.py : auto-tagging -/

/-- `_TAG_PATTERNS` of core.py, in dictionary (insertion) order. -/
def _TAG_PATTERNS : List (String × List (List RTok)) :=
  [ ("infrastructure",
      [lw ("docker"), lw ("k8s"), lw ("kubernetes"), lw ("nginx"), lw ("server"),
       lw ("deploy"), lw ("cloud"), lw ("aws"), lw ("gcp"), lw ("azure"), lw ("local")]),
    ("ai_ml",
      [lw ("llm"), lw ("model"), lw ("embedding"), lw ("rag"), lw ("vector"),
       lw ("fine") ++ [RTok.anyOpt] ++ lw ("tun"),
       lw ("inference"), lw ("ollama"), lw ("mistral"), lw ("gpt")]),
    ("python",
      [lw ("python"), lw ("pip"), lw ("venv"), lw ("fastapi"), lw ("flask"),
       lw ("django"), lw ("pydantic")]),
    ("architecture",
      [lw ("architecture"), lw ("design"), lw ("pattern"), lw ("scalab"),
       lw ("microservice"), lw ("monolith"), lw ("system")]),
    ("debugging",
      [lw ("error"), lw ("bug"), lw ("fix"), lw ("broken"), lw ("fail"),
       lw ("crash"), lw ("exception"), lw ("traceback")]),
    ("preference",
      [lw ("prefer"), lw ("rather"), lw ("instead"), lw ("avoid"), lw ("hate"),
       lw ("love"), lw ("like"), lw ("dislike"), lw ("want")]),
    ("goal",
      [lw ("goal"), lw ("want to"), lw ("trying to"), lw ("building"),
       lw ("create"), lw ("launch"), lw ("ship")]),
    ("frustration",
      [lw ("frustrat"), lw ("annoy"), lw ("slow"), lw ("complic"),
       lw ("overengineer"), lw ("too much"), lw ("wrong")]),
    ("spirituality",
      [lw ("gita"), lw ("krishna"), lw ("karma"), lw ("jnana"), lw ("bhakti"),
       lw ("dharma"), lw ("marga"), lw ("yoga"), lw ("vedic"), lw ("spiritual")]),
    ("correction",
      [lw ("no,"), lw ("wrong"), lw ("incorrect"), lw ("not right"),
       lw ("that\x27s not"), lw ("actually,")]),
    ("investing",
      [lw ("invest"), lw ("stock"), lw ("market"), lw ("portfolio"), lw ("value"),
       lw ("p/e"), lw ("dividend"), lw ("equity"), lw ("asset")]),
    ("learning",
      [lw ("learn"), lw ("study"), lw ("understand"), lw ("teach"), lw ("master"),
       lw ("curriculum"), lw ("course"), lw ("practice")]) ]

/-- `_auto_tag` of core.py: lower-case the text, keep each tag whose pattern
matches somewhere. -/
def _auto_tag (text : String) : List String :=
  _TAG_PATTERNS.filterMap (fun p => if regexHit p.2 (pyLower text) then some p.1 else none)

/-! ## core.py : confidence scoring -/

/-- The hedging vocabulary of `_score_confidence` (alternation order of the
source regex). -/
def hedgeWords : List (List Char) :=
  [("maybe").data, ("perhaps").data, ("might").data, ("could").data,
   ("not sure").data, ("unclear").data, ("depends").data, ("uncertain").data,
   ("possibly").data]

/-- Match a literal at the head of `t`, returning the last consumed
character and the rest. -/
def litRun : List Char → Option Char → List Char → Option (Option Char × List Char)
  | [], last, rest => some (last, rest)
  | c :: cs, _, d :: rest => if d == c then litRun cs (some d) rest else none
  | _ :: _, _, [] => none

/-- First hedging alternative (in regex order) matching at this position
with `\b` on both sides. -/
def tryHedge (prev : Option Char) (t : List Char) : Option (Option Char × List Char) :=
  if wbound prev t.head? then
    hedgeWords.foldr
      (fun alt acc =>
        match litRun alt prev t with
        | some (last, rest) => if wbound last rest.head? then some (last, rest) else acc
        | none => acc)
      none
  else none

/-- Non-overlapping left-to-right scan, as `re.findall` counts matches. -/
def hedgeScanGo : Nat → Option Char → List Char → Nat
  | 0, _, _ => 0
  | _ + 1, _, [] => 0
  | fuel + 1, prev, d :: rest =>
    match tryHedge prev (d :: rest) with
    | some (last, rest2) => 1 + hedgeScanGo fuel last rest2
    | none => hedgeScanGo fuel (some d) rest

/-- Number of hedging-word occurrences in `answer.lower()`. -/
def countHedges (answer : String) : Nat :=
  hedgeScanGo ((pyLower answer).length + 1) none (pyLower answer)

/-- `50 < len(answer.split()) < 600` of `_score_confidence`. -/
def lengthOkB (answer : String) : Bool :=
  decide (50 < pyWordCount answer) && decide (pyWordCount answer < 600)

/-- `_score_confidence` of core.py, in hundredths: the source computes
`round(max(0.3, min(0.95, 0.85 - hedges*0.08 + (0.05 if length_ok else 0))), 2)`;
all candidate values are exact hundredths, so the hundredths integer below
is an exact model of the returned float.  The question argument is kept
because the source takes it (and ignores it). -/
def _score_confidence (question answer : String) : Int :=
  max 30 (min 95 (85 - 8 * (countHedges answer : Int) + (if lengthOkB answer then 5 else 0)))

/-! ## core.py : the episodic log

One `Entry` is one logged interaction record (the dict built by
`log_interaction`).  The log file is `none` while it has never been
created; once created it is the list of its lines, a line being either a
serialized record or blank (`none`).  `json.dumps` emits exactly one
newline-free line per record and `json.loads` parses it back, so `append`
is list append at this granularity.  `id`/`timestamp` come from
`uuid.uuid4()`/`datetime.now()` and are modelled as explicit inputs. -/

structure Entry where
  id : String
  timestamp : String
  question : String
  answer : String
  tags : List String
  confidence : Int
deriving DecidableEq

abbrev LogFile := Option (List (Option Entry))

/-- The input of one `log_interaction` call: the two texts, the
caller-supplied extra tags, and the generated id/timestamp. -/
structure LogInput where
  id : String
  timestamp : String
  question : String
  answer : String
  extra_tags : Option (List String)
deriving DecidableEq

/-- The tag list of `log_interaction`: auto tags of `question + " " + answer`;
when `extra_tags` is supplied and non-empty, `list(set(tags + extra_tags))`.
Python set iteration order is implementation defined; it is modelled as
first-occurrence deduplication, and no claim under proof exercises this
branch. -/
def entryTags (question answer : String) (extra_tags : Option (List String)) : List String :=
  let tags := _auto_tag (question ++ " " ++ answer)
  match extra_tags with
  | none => tags
  | some ex => if ex.isEmpty then tags else (tags ++ ex).eraseDups

/-- The record `log_interaction` builds and returns. -/
def mkEntry (i : LogInput) : Entry :=
  { id := i.id, timestamp := i.timestamp, question := i.question, answer := i.answer,
    tags := entryTags i.question i.answer i.extra_tags,
    confidence := _score_confidence i.question i.answer }

/-- Appending one serialized record line to the log file (the
`config.log_file.open("a")` write; `ensure_dirs` makes the append succeed). -/
def log_append (e : Entry) (f : LogFile) : LogFile :=
  some (f.getD [] ++ [some e])

/-- `log_interaction` of core.py: build the record, append it, return it. -/
def log_interaction (i : LogInput) (f : LogFile) : Entry × LogFile :=
  (mkEntry i, log_append (mkEntry i) f)

/-- A sequence of `log_interaction` calls. -/
def runLog : List LogInput → LogFile → LogFile
  | [], f => f
  | i :: is, f => runLog is ((log_interaction i f).2)

/-- Python list slicing `l[k:]`. -/
def pySliceFrom (k : Int) (l : List α) : List α :=
  if k < 0 then l.drop (max 0 ((l.length : Int) + k)).toNat
  else l.drop (min (l.length : Int) k).toNat

/-- `load_log` of core.py: `[]` when the file does not exist; otherwise
deserialize every non-blank line, and apply `entries[-n:] if n else entries`
(`n` falsy means `None` or `0`). -/
def load_log (n : Option Int) (f : LogFile) : List Entry :=
  match f with
  | none => []
  | some ls =>
    let entries := ls.filterMap id
    match n with
    | none => entries
    | some k => if k = 0 then entries else pySliceFrom (-k) entries

/-- `log_count` of core.py: number of non-blank lines. -/
def log_count (f : LogFile) : Nat :=
  match f with
  | none => 0
  | some ls => (ls.filterMap id).length

/-! ## JSON values and `json.loads`

JSON numeric literals are exact decimals; they are carried as
`mant * 10 ^ ex` with integer mantissa and exponent, which the kernel can
compute with (ℚ arithmetic does not reduce definitionally).  `JNum.toRat`
gives the numeric value; the executable comparison `JNum.le` is proved
equivalent to `toRat` order below.  (Python parses JSON decimals to IEEE
floats; on the magnitudes involved here the decimal value is what the
float comparisons decide, and no claim depends on float rounding.) -/

structure JNum where
  mant : Int
  ex : Int
deriving DecidableEq

/-- Numeric value of a decimal literal. -/
def JNum.toRat (n : JNum) : ℚ := (n.mant : ℚ) * (10 : ℚ) ^ n.ex

/-- Executable numeric order on decimal literals. -/
def JNum.le (a b : JNum) : Bool :=
  if b.ex ≤ a.ex then decide (a.mant * 10 ^ (a.ex - b.ex).toNat ≤ b.mant)
  else decide (a.mant ≤ b.mant * 10 ^ (b.ex - a.ex).toNat)

def JNum.lt (a b : JNum) : Bool := !(JNum.le b a)

def JNum.isZero (n : JNum) : Bool := n.mant == 0

/-- The integer `0`. -/
def JNum.zero : JNum := ⟨0, 0⟩

/-- The integer `1` (Python `True` under numeric comparison). -/
def JNum.one : JNum := ⟨1, 0⟩

inductive Json where
  | null
  | bool (b : Bool)
  | num (n : JNum)
  | str (s : String)
  | arr (elems : List Json)
  | obj (fields : List (String × Json))

/-- JSON whitespace accepted between tokens by `json.loads`. -/
def jWs (c : Char) : Bool := c == ' ' || c == '\t' || c == '\n' || c == '\r'

def skipWs : List Char → List Char
  | [] => []
  | c :: rest => if jWs c then skipWs rest else c :: rest

def hexVal (c : Char) : Option Nat :=
  if c.isDigit then some (c.toNat - 48)
  else if 'a' ≤ c && c ≤ 'f' then some (c.toNat - 87)
  else if 'A' ≤ c && c ≤ 'F' then some (c.toNat - 55)
  else none

/-- Body of a JSON string after the opening quote.  Strict mode: raw
control characters are rejected.  `\uXXXX` maps the code unit to a `Char`
directly (surrogate pairing is not modelled; no claim depends on it). -/
def pStrBody : List Char → Option (List Char × List Char)
  | [] => none
  | '"' :: rest => some ([], rest)
  | '\\' :: 'u' :: a :: b :: c :: d :: rest =>
    (match hexVal a, hexVal b, hexVal c, hexVal d with
     | some x, some y, some z, some w =>
       (match pStrBody rest with
        | some (cs, r) => some (Char.ofNat (((x * 16 + y) * 16 + z) * 16 + w) :: cs, r)
        | none => none)
     | _, _, _, _ => none)
  | '\\' :: e :: rest =>
    (match (match e with
            | '"' => some '"'
            | '\\' => some '\\'
            | '/' => some '/'
            | 'b' => some '\x08'
            | 'f' => some '\x0c'
            | 'n' => some '\n'
            | 'r' => some '\r'
            | 't' => some '\t'
            | _ => none) with
     | some c =>
       (match pStrBody rest with
        | some (cs, r) => some (c :: cs, r)
        | none => none)
     | none => none)
  | c :: rest =>
    if c.toNat < 32 then none
    else match pStrBody rest with
      | some (cs, r) => some (c :: cs, r)
      | none => none

def takeDigits : List Char → (List Char × List Char)
  | [] => ([], [])
  | c :: rest =>
    if c.isDigit then
      let p := takeDigits rest
      (c :: p.1, p.2)
    else ([], c :: rest)

def digitsNat (ds : List Char) : Nat := ds.foldl (fun n c => 10 * n + (c.toNat - 48)) 0

/-- JSON number grammar: `-? (0 | [1-9][0-9]*) (. [0-9]+)? ([eE][+-]?[0-9]+)?`,
valued as an exact decimal. -/
def pNum (cs : List Char) : Option (JNum × List Char) :=
  let sgn : Bool × List Char := match cs with
    | '-' :: r => (true, r)
    | _ => (false, cs)
  match sgn.2 with
  | [] => none
  | c :: r0 =>
    if ¬ c.isDigit then none
    else
      let ip : List Char × List Char :=
        if c == '0' then (['0'], r0)
        else let p := takeDigits r0; (c :: p.1, p.2)
      let afterInt := ip.2
      let fr : Option (List Char × List Char) :=
        match afterInt with
        | '.' :: r1 =>
          (match takeDigits r1 with
           | ([], _) => none
           | (ds, r2) => some (ds, r2))
        | _ => some ([], afterInt)
      match fr with
      | none => none
      | some (fds, afterFrac) =>
        let ex : Option (Int × List Char) :=
          match afterFrac with
          | 'e' :: r3 =>
            (match r3 with
             | '+' :: r4 => (match takeDigits r4 with | ([], _) => none | (ds, r5) => some ((digitsNat ds : Int), r5))
             | '-' :: r4 => (match takeDigits r4 with | ([], _) => none | (ds, r5) => some (-(digitsNat ds : Int), r5))
             | _ => (match takeDigits r3 with | ([], _) => none | (ds, r5) => some ((digitsNat ds : Int), r5)))
          | 'E' :: r3 =>
            (match r3 with
             | '+' :: r4 => (match takeDigits r4 with | ([], _) => none | (ds, r5) => some ((digitsNat ds : Int), r5))
             | '-' :: r4 => (match takeDigits r4 with | ([], _) => none | (ds, r5) => some (-(digitsNat ds : Int), r5))
             | _ => (match takeDigits r3 with | ([], _) => none | (ds, r5) => some ((digitsNat ds : Int), r5)))
          | _ => some (0, afterFrac)
        match ex with
        | none => none
        | some (e, rest) =>
          let m : Int := (digitsNat (ip.1 ++ fds) : Int)
          some (⟨if sgn.1 then -m else m, e - (fds.length : Int)⟩, rest)

/-- Parser modes: one value / the items of an array after `[` / the items
of an object after `{` (both knowing the collection is non-empty). -/
inductive PMode where
  | val
  | arrItems
  | objItems

inductive POut where
  | v (j : Json)
  | vs (l : List Json)
  | fs (l : List (String × Json))

/-- Recursive-descent JSON parser, fuel-indexed so that it reduces in the
kernel.  The fuel given by `json_loads` is an over-approximation of the
number of recursive calls needed, so exhaustion never occurs for it. -/
def pAny : Nat → PMode → List Char → Option (POut × List Char)
  | 0, _, _ => none
  | fuel + 1, PMode.val, cs =>
    (match skipWs cs with
     | [] => none
     | 'n' :: 'u' :: 'l' :: 'l' :: rest => some (POut.v Json.null, rest)
     | 't' :: 'r' :: 'u' :: 'e' :: rest => some (POut.v (Json.bool true), rest)
     | 'f' :: 'a' :: 'l' :: 's' :: 'e' :: rest => some (POut.v (Json.bool false), rest)
     | '"' :: rest =>
       (match pStrBody rest with
        | some (cs2, r) => some (POut.v (Json.str (String.mk cs2)), r)
        | none => none)
     | '[' :: rest =>
       (match skipWs rest with
        | ']' :: r => some (POut.v (Json.arr []), r)
        | other =>
          match pAny fuel PMode.arrItems other with
          | some (POut.vs l, r) => some (POut.v (Json.arr l), r)
          | _ => none)
     | '{' :: rest =>
       (match skipWs rest with
        | '}' :: r => some (POut.v (Json.obj []), r)
        | other =>
          match pAny fuel PMode.objItems other with
          | some (POut.fs l, r) => some (POut.v (Json.obj l), r)
          | _ => none)
     | other =>
       match pNum other with
       | some (q, r) => some (POut.v (Json.num q), r)
       | none => none)
  | fuel + 1, PMode.arrItems, cs =>
    (match pAny fuel PMode.val cs with
     | some (POut.v j, r1) =>
       (match skipWs r1 with
        | ',' :: r2 =>
          (match pAny fuel PMode.arrItems r2 with
           | some (POut.vs l, r3) => some (POut.vs (j :: l), r3)
           | _ => none)
        | ']' :: r2 => some (POut.vs [j], r2)
        | _ => none)
     | _ => none)
  | fuel + 1, PMode.objItems, cs =>
    (match skipWs cs with
     | '"' :: rest =>
       (match pStrBody rest with
        | some (kcs, r1) =>
          (match skipWs r1 with
           | ':' :: r2 =>
             (match pAny fuel PMode.val r2 with
              | some (POut.v j, r3) =>
                (match skipWs r3 with
                 | ',' :: r4 =>
                   (match pAny fuel PMode.objItems r4 with
                    | some (POut.fs l, r5) => some (POut.fs ((String.mk kcs, j) :: l), r5)
                    | _ => none)
                 | '}' :: r4 => some (POut.fs [(String.mk kcs, j)], r4)
                 | _ => none)
              | _ => none)
           | _ => none)
        | none => none)
     | _ => none)

/-- `json.loads`: parse one value, allow trailing whitespace only.
(`NaN`/`Infinity` literals are not modelled.) -/
def json_loads (s : String) : Option Json :=
  match pAny (4 * s.data.length + 16) PMode.val s.data with
  | some (POut.v j, rest) => if (skipWs rest).isEmpty then some j else none
  | _ => none

/-! ## Json access helpers (Python dict/truthiness semantics) -/

/-- Dictionary lookup.  `json.loads` keeps the last value bound to a
duplicated key, so lookup takes the last occurrence. -/
def lookupLast (fs : List (String × Json)) (k : String) : Option Json :=
  match fs.reverse.find? (fun p => p.1 == k) with
  | none => none
  | some p => some p.2

/-- Python `d[k]`: `none` models the exception raised when the value is not
a dict or the key is missing. -/
def jIndex (j : Json) (k : String) : Option Json :=
  match j with
  | .obj fs => lookupLast fs k
  | _ => none

/-- Python `d.get(k, default)`: `none` models the `AttributeError` raised
when the value is not a dict. -/
def pget (j : Json) (k : String) (d : Json) : Option Json :=
  match j with
  | .obj fs => some ((lookupLast fs k).getD d)
  | _ => none

/-- Python truthiness of a parsed JSON value. -/
def jsonTruthy : Json → Bool
  | .null => false
  | .bool b => b
  | .num n => !(JNum.isZero n)
  | .str s => !(s.data.isEmpty)
  | .arr l => !(l.isEmpty)
  | .obj fs => !(fs.isEmpty)

/-- The numeric value Python would use a JSON value as in a comparison or
a percent format: numbers are themselves, booleans are 0/1, everything
else raises (`none`). -/
def jsonNumVal : Json → Option JNum
  | .num n => some n
  | .bool b => some (if b then JNum.one else JNum.zero)
  | _ => none

/-- Python `x.get(k, 0)` used as a number: missing key defaults to the
number 0, a non-dict or a non-numeric value raises (`none`). -/
def getNumDefault (k : String) (j : Json) : Option JNum :=
  match j with
  | .obj fs =>
    (match lookupLast fs k with
     | none => some JNum.zero
     | some v => jsonNumVal v)
  | _ => none

/-- `x.get("confidence", 0)` as a number: the value both the reflection
filter and the formatter sort keys use. -/
def confKey (j : Json) : Option JNum := getNumDefault ("confidence") j

/-- `len(x)`: defined for arrays, strings and dicts, raises otherwise. -/
def jsonLen : Json → Option Nat
  | .arr l => some l.length
  | .str s => some s.data.length
  | .obj fs => some fs.length
  | _ => none

/-! ## The lenient model-output parse chain (reflection.py / synthesis.py) -/

/-- `re.sub(r"```(?:json)?", "", raw)`: left-to-right removal of every
triple-backtick fence marker, a greedy optional `json` suffix included. -/
def stripFencesGo : List Char → List Char
  | c1 :: c2 :: c3 :: 'j' :: 's' :: 'o' :: 'n' :: rest =>
    if isTick c1 && isTick c2 && isTick c3 then stripFencesGo rest
    else c1 :: stripFencesGo (c2 :: c3 :: 'j' :: 's' :: 'o' :: 'n' :: rest)
  | c1 :: c2 :: c3 :: rest =>
    if isTick c1 && isTick c2 && isTick c3 then stripFencesGo rest
    else c1 :: stripFencesGo (c2 :: c3 :: rest)
  | c :: rest => c :: stripFencesGo rest
  | [] => []

/-- The cleanup both parse helpers apply first:
`re.sub(r"```(?:json)?", "", raw).strip().rstrip("`").strip()`. -/
def cleanRaw (raw : String) : String :=
  pyStrip (pyRstripTicks (pyStrip (String.mk (stripFencesGo raw.data))))

/-- The span the fallback `re.search(r"\[.*\]", raw, re.DOTALL)` (resp.
`\{.*\}`) extracts: first opening bracket through last closing bracket,
when the first opener precedes the last closer. -/
def bracketSpan (o c : Char) (s : String) : Option String :=
  match s.data.findIdx? (fun x => x == o), s.data.reverse.findIdx? (fun x => x == c) with
  | some i, some jr =>
    let j := s.data.length - 1 - jr
    if i < j then some (String.mk ((s.data.drop i).take (j - i + 1))) else none
  | _, _ => none

/-- `_parse_beliefs` of reflection.py: strip fences, try a direct parse
(a successful parse that is not a list yields `[]` with no fallback), else
regex-extract the bracketed span and retry, else `[]`.  A span beginning
with `[` can only parse as an array. -/
def _parse_beliefs (raw : String) : List Json :=
  let r := cleanRaw raw
  match json_loads r with
  | some (Json.arr l) => l
  | some _ => []
  | none =>
    match bracketSpan '[' ']' r with
    | some sub =>
      (match json_loads sub with
       | some (Json.arr l) => l
       | _ => [])
    | none => []

/-- `_parse_result` of synthesis.py: strip fences, return whatever a direct
parse yields (any JSON value), else the parsed `{...}` span, else `{}`. -/
def _parse_result (raw : String) : Json :=
  let r := cleanRaw raw
  match json_loads r with
  | some v => v
  | none =>
    match bracketSpan '{' '}' r with
    | some sub =>
      (match json_loads sub with
       | some v => v
       | none => Json.obj [])
    | none => Json.obj []

/-! ## config.py -/

/-- The numeric configuration surface the core stages read
(`0.6 = ⟨6, -1⟩`, `0.65 = ⟨65, -2⟩` as exact decimals). -/
structure EngineConfig where
  reflection_window : Int := 50
  min_belief_confidence : JNum := ⟨6, -1⟩
  synthesis_window : Int := 200
  min_pattern_confidence : JNum := ⟨65, -2⟩
  context_window : Int := 6

/-- `default_config` of config.py. -/
def default_config : EngineConfig := {}

/-! ## reflection.py : the belief store and the reflection run -/

/-- The object `_save_beliefs` writes to `beliefs.json`. -/
structure BeliefDoc where
  last_updated : String
  reflection_count : Int
  beliefs : List Json

/-- `load_beliefs`: `[]` when the file does not exist, else the `beliefs`
field. -/
def load_beliefs (store : Option BeliefDoc) : List Json :=
  match store with
  | none => []
  | some d => d.beliefs

/-- `_save_beliefs` of reflection.py (the timestamp is an input). -/
def _save_beliefs (beliefs : List Json) (reflection_count : Int) (now : String) : BeliefDoc :=
  { last_updated := now, reflection_count := reflection_count, beliefs := beliefs }

/-- The `reflection_count` read from disk before a run (`0` when the belief
file does not exist). -/
def priorCount (store : Option BeliefDoc) : Int :=
  match store with
  | none => 0
  | some d => d.reflection_count

/-- The comprehension
`[b for b in beliefs if b.get("confidence", 0) >= config.min_belief_confidence]`:
`none` models the exception raised on a non-dict element or a non-numeric
confidence value. -/
def filterConf (minC : JNum) : List Json → Option (List Json)
  | [] => some []
  | b :: bs =>
    match confKey b with
    | none => none
    | some q =>
      (match filterConf minC bs with
       | none => none
       | some r => some (if JNum.le minC q then b :: r else r))

/-- Result of one `run_reflection` call: the returned belief list, the
belief store after the run, and whether the model adapter was invoked. -/
structure ReflectOut where
  beliefs : List Json
  store : Option BeliefDoc
  called : Bool

/-- `run_reflection` of reflection.py.  `raw` is the text the model
adapter returns for this run and `now` the wall-clock timestamp, both
explicit inputs; the existing beliefs are read only to build the prompt,
which does not influence any verified behavior.  `none` models an
exception escaping the run. -/
def run_reflection (raw now : String) (cfg : EngineConfig) (log : LogFile)
    (store : Option BeliefDoc) : Option ReflectOut :=
  if (load_log (some cfg.reflection_window) log).isEmpty then
    some { beliefs := [], store := store, called := false }
  else
    let reflection_count := priorCount store
    let beliefs := _parse_beliefs raw
    match filterConf cfg.min_belief_confidence beliefs with
    | none => none
    | some filtered =>
      some { beliefs := filtered,
             store := some (_save_beliefs filtered (reflection_count + 1) now),
             called := true }

/-! ## synthesis.py : the pattern/tension stores and the synthesis run -/

/-- The object `_save_synthesis` writes to `cognitive_patterns.json`
(`experience_compression` fields inlined; `compression` is its
`compression_ratio` string, `none` standing for JSON `null`). -/
structure PatternDoc where
  last_updated : Option String
  synthesis_count : Int
  abstraction_ladder : Json
  cognitive_patterns : Json
  decision_archetype : Json
  total_events : Int
  total_patterns : Nat
  compression : Option String

/-- The object `_save_synthesis` writes to `tensions.json`. -/
structure TensionDoc where
  last_updated : Option String
  tensions : Json
  resolved : List Json

/-- The default dict `load_patterns` returns when the pattern file does
not exist. -/
def defaultPatternDoc : PatternDoc :=
  { last_updated := none, synthesis_count := 0,
    abstraction_ladder := Json.obj
      [("observations", Json.arr []), ("themes", Json.arr []),
       ("patterns", Json.arr []), ("biases", Json.arr [])],
    cognitive_patterns := Json.arr [],
    decision_archetype := Json.obj
      [("dominant", Json.null), ("distribution", Json.obj []), ("history", Json.arr [])],
    total_events := 0, total_patterns := 0, compression := none }

/-- `load_patterns` of synthesis.py. -/
def load_patterns (ps : Option PatternDoc) : PatternDoc :=
  match ps with
  | none => defaultPatternDoc
  | some d => d

/-- `load_tensions` of synthesis.py: the `tensions` field, `[]` when the
file does not exist. -/
def load_tensions (ts : Option TensionDoc) : Json :=
  match ts with
  | none => Json.arr []
  | some d => d.tensions

/-- `_save_synthesis` of synthesis.py: read the four sections out of the
model result with `.get` defaults, compute `len(patterns)` and the
compression string, and build both documents.  `none` models the exception
raised when the result is not a dict or `len` is applied to an unsized
value. -/
def _save_synthesis (result : Json) (synthesis_count : Int) (total_events : Int)
    (now : String) : Option (PatternDoc × TensionDoc) :=
  match pget result ("cognitive_patterns") (Json.arr []) with
  | none => none
  | some patterns =>
    match pget result ("tensions") (Json.arr []) with
    | none => none
    | some tensions =>
      match pget result ("decision_archetype") (Json.obj []) with
      | none => none
      | some archetype =>
        match pget result ("abstraction_ladder") (Json.obj []) with
        | none => none
        | some ladder =>
          match jsonLen patterns with
          | none => none
          | some n =>
            some ({ last_updated := some now, synthesis_count := synthesis_count,
                    abstraction_ladder := ladder, cognitive_patterns := patterns,
                    decision_archetype := archetype, total_events := total_events,
                    total_patterns := n,
                    compression := some (if jsonTruthy patterns then
                      toString total_events ++ ":" ++ toString n else ("N/A")) },
                  { last_updated := some now, tensions := tensions, resolved := [] })

/-- Result of one `run_synthesis` call: the returned result dict, both
stores after the run, and whether the model adapter was invoked. -/
structure SynthOut where
  result : Json
  pstore : Option PatternDoc
  tstore : Option TensionDoc
  called : Bool

/-- `run_synthesis` of synthesis.py.  `raw` is the adapter output text for
this run, `now` the timestamp.  `none` models an exception escaping the
run. -/
def run_synthesis (raw now : String) (cfg : EngineConfig) (log : LogFile)
    (bstore : Option BeliefDoc) (ps : Option PatternDoc) (ts : Option TensionDoc) :
    Option SynthOut :=
  if (load_beliefs bstore).isEmpty then
    some { result := Json.obj [], pstore := ps, tstore := ts, called := false }
  else
    let total_events := (log_count log : Int)
    let synth_count := (load_patterns ps).synthesis_count
    let result := _parse_result raw
    if jsonTruthy result = false then
      some { result := Json.obj [], pstore := ps, tstore := ts, called := true }
    else
      match _save_synthesis result (synth_count + 1) total_events now with
      | none => none
      | some (pd, td) =>
        some { result := result, pstore := some pd, tstore := some td, called := true }

/-! ## Context formatters (reflection.py / synthesis.py) -/

/-- Rendering of a JSON value inside an f-string.  Strings render as
themselves; the containers and numerals approximate the Python `str()`
form — every claim under proof renders only string fields, and the
formatter determinism claims are independent of this rendering. -/
def pyStr : Json → String
  | .str s => s
  | .bool true => "True"
  | .bool false => "False"
  | .null => "None"
  | .num n => toString n.mant ++ "e" ++ toString n.ex
  | .arr _ => "[...]"
  | .obj _ => "\x7b...\x7d"

/-- Round half to even, the rounding of Python `format(x, ".0%")`, applied
to `q * 100` for an exact decimal `q`. -/
def pctInt (q : JNum) : Int :=
  let k := q.ex + 2
  if 0 ≤ k then q.mant * 10 ^ k.toNat
  else
    let d : Int := (10 : Int) ^ (-k).toNat
    let f := Int.fdiv q.mant d
    let r := q.mant - f * d
    if 2 * r < d then f
    else if d < 2 * r then f + 1
    else if f % 2 = 0 then f else f + 1

/-- `f"{q:.0%}"`. -/
def pctStr (q : JNum) : String := toString (pctInt q) ++ "%"

/-- `"\n".join(lines)`. -/
def joinNl (lines : List String) : String := String.intercalate ("\n") lines

/-- The sort key `confD x = x.get("confidence", 0)` with error detection,
and the stable descending sort
`sorted(xs, key=lambda x: -x.get("confidence", 0))` (Python `sorted` is
stable; `List.insertionSort` with a total preorder computes the same
unique stable result). -/
def confD (j : Json) : JNum := (confKey j).getD JNum.zero

def sortDescByConf (l : List Json) : Option (List Json) :=
  if l.all (fun b => (confKey b).isSome) then
    some (List.insertionSort (fun a b => JNum.le (confD b) (confD a) = true) l)
  else none

/-- One bullet of `format_belief_block`:
`f"- \x7bb['belief']\x7d (\x7bb.get('confidence', 0):.0%\x7d)"`. -/
def renderBelief (b : Json) : Option String :=
  match jIndex b ("belief") with
  | none => none
  | some bt =>
    (match confKey b with
     | none => none
     | some q => some ("- " ++ pyStr bt ++ " (" ++ pctStr q ++ ")"))

/-- `format_belief_block` of reflection.py: load from the store when no
belief list is passed; empty string when there are none; else a header
plus one bullet per belief in descending-confidence order, joined with
newlines, ending in a blank line. -/
def format_belief_block (beliefs? : Option (List Json)) (store : Option BeliefDoc) :
    Option String :=
  let beliefs := match beliefs? with
    | none => load_beliefs store
    | some bs => bs
  if beliefs.isEmpty then some ("")
  else
    match sortDescByConf beliefs with
    | none => none
    | some sorted =>
      (match sorted.mapM renderBelief with
       | none => none
       | some blines =>
         some (joinNl ("## What I know about you (domain beliefs)\n" :: blines) ++ "\n\n"))

/-- One bullet of `format_cognitive_block`:
`f"- \x7bp['pattern']\x7d (\x7bp['confidence']:.0%\x7d)"` (direct indexing,
so a missing key or a non-numeric confidence raises). -/
def renderPat (p : Json) : Option String :=
  match jIndex p ("pattern") with
  | none => none
  | some pt =>
    (match jIndex p ("confidence") with
     | none => none
     | some cv =>
       match jsonNumVal cv with
       | none => none
       | some q => some ("- " ++ pyStr pt ++ " (" ++ pctStr q ++ ")"))

/-- `[t for t in tensions if t.get("severity", 0) > 0.5]`. -/
def filterActive : List Json → Option (List Json)
  | [] => some []
  | t :: rest =>
    match getNumDefault ("severity") t with
    | none => none
    | some sev =>
      (match filterActive rest with
       | none => none
       | some r => some (if JNum.lt ⟨5, -1⟩ sev then t :: r else r))

/-- `f"- \x7bt['strategic_question']\x7d"`. -/
def renderTension (t : Json) : Option String :=
  match jIndex t ("strategic_question") with
  | none => none
  | some sq => some ("- " ++ pyStr sq)

/-- The fixed behavioral instruction suffix of `format_cognitive_block`. -/
def suffixBlock : String :=
  "\nWhen responding: align with cognitive style. " ++
  "Flag contradictions to archetype. " ++
  "Apply cross-domain transfer when relevant. " ++
  "No lists. Direct prose only. Name patterns by label.\n"

/-- `format_cognitive_block` of synthesis.py: empty string when no
patterns are stored; otherwise the header, pattern bullets sorted by
descending confidence, the dominant archetype when truthy, tensions of
severity above 0.5 as strategic questions, and the instruction suffix. -/
def format_cognitive_block (ps : Option PatternDoc) (ts : Option TensionDoc) :
    Option String :=
  let data := load_patterns ps
  let tensions := load_tensions ts
  let patterns := data.cognitive_patterns
  if jsonTruthy patterns = false then some ("")
  else
    match patterns with
    | Json.arr plist =>
      (match sortDescByConf plist with
       | none => none
       | some sorted =>
         match sorted.mapM renderPat with
         | none => none
         | some plines =>
           match pget data.decision_archetype ("dominant") Json.null with
           | none => none
           | some dom =>
             let domLines := if jsonTruthy dom then
               ["\nDominant decision archetype: " ++ pyStr dom] else []
             match tensions with
             | Json.arr tlist =>
               (match filterActive tlist with
                | none => none
                | some active =>
                  match active.mapM renderTension with
                  | none => none
                  | some tbullets =>
                    let tlines := if active.isEmpty then []
                      else ("\nActive cognitive tensions:") :: tbullets
                    some (joinNl (("## Cognitive Signature (how this user thinks)\n" ::
                      plines) ++ domLines ++ tlines ++ [suffixBlock])))
             | _ => none)
    | _ => none

/-! ## Concrete data for the evaluation witnesses -/

/-- A stored interaction record. -/
def demoEntry : Entry :=
  { id := "e1", timestamp := "t0", question := "hi", answer := "there",
    tags := [], confidence := 85 }

/-- A one-record log file. -/
def demoLog : LogFile := some [some demoEntry]

/-- A stored belief object with confidence 0.8. -/
def demoBelief : Json :=
  Json.obj [("belief", Json.str ("b1")), ("confidence", Json.num ⟨8, -1⟩)]

/-- A belief document holding one belief after three reflection runs. -/
def demoDoc : BeliefDoc :=
  { last_updated := "t0", reflection_count := 3, beliefs := [demoBelief] }

/-- A well-formed model output for a reflection run. -/
def rawBeliefsOk : String :=
  "[\x7b\"belief\": \"b1\", \"confidence\": 0.8\x7d]"

/-! ## Helper lemmas -/

/-- The executable decimal order agrees with the rational value order. -/
theorem jnum_le_iff (a b : JNum) : JNum.le a b = true ↔ a.toRat ≤ b.toRat := by
  have h10 : (10 : ℚ) ≠ 0 := by norm_num
  have h10pos : ∀ e : Int, (0 : ℚ) < (10 : ℚ) ^ e := fun e => zpow_pos (by norm_num) e
  unfold JNum.le JNum.toRat
  by_cases hc : b.ex ≤ a.ex
  · rw [if_pos hc, decide_eq_true_eq]
    have hk : ((a.ex - b.ex).toNat : Int) = a.ex - b.ex := Int.toNat_of_nonneg (by omega)
    have hsplit : (10 : ℚ) ^ a.ex = (10 : ℚ) ^ (((a.ex - b.ex).toNat : Int)) * (10 : ℚ) ^ b.ex := by
      rw [← zpow_add₀ h10]
      congr 1
      omega
    constructor
    · intro h
      rw [hsplit, ← mul_assoc]
      apply mul_le_mul_of_nonneg_right _ (le_of_lt (h10pos b.ex))
      calc (a.mant : ℚ) * (10 : ℚ) ^ (((a.ex - b.ex).toNat : Int))
          = ((a.mant * 10 ^ (a.ex - b.ex).toNat : Int) : ℚ) := by push_cast [zpow_natCast]; ring
        _ ≤ (b.mant : ℚ) := by exact_mod_cast h
    · intro h
      rw [hsplit, ← mul_assoc] at h
      have h2 := (mul_le_mul_right (h10pos b.ex)).mp h
      have h3 : ((a.mant * 10 ^ (a.ex - b.ex).toNat : Int) : ℚ) ≤ ((b.mant : Int) : ℚ) := by
        calc ((a.mant * 10 ^ (a.ex - b.ex).toNat : Int) : ℚ)
            = (a.mant : ℚ) * (10 : ℚ) ^ (((a.ex - b.ex).toNat : Int)) := by
              push_cast [zpow_natCast]; ring
          _ ≤ _ := h2
      exact_mod_cast h3
  · rw [if_neg hc, decide_eq_true_eq]
    have hk : ((b.ex - a.ex).toNat : Int) = b.ex - a.ex := Int.toNat_of_nonneg (by omega)
    have hsplit : (10 : ℚ) ^ b.ex = (10 : ℚ) ^ (((b.ex - a.ex).toNat : Int)) * (10 : ℚ) ^ a.ex := by
      rw [← zpow_add₀ h10]
      congr 1
      omega
    constructor
    · intro h
      rw [hsplit, ← mul_assoc]
      apply mul_le_mul_of_nonneg_right _ (le_of_lt (h10pos a.ex))
      calc (a.mant : ℚ) ≤ ((b.mant * 10 ^ (b.ex - a.ex).toNat : Int) : ℚ) := by exact_mod_cast h
        _ = (b.mant : ℚ) * (10 : ℚ) ^ (((b.ex - a.ex).toNat : Int)) := by
              push_cast [zpow_natCast]; ring
    · intro h
      rw [hsplit, ← mul_assoc] at h
      have h2 := (mul_le_mul_right (h10pos a.ex)).mp h
      have h3 : ((a.mant : Int) : ℚ) ≤ ((b.mant * 10 ^ (b.ex - a.ex).toNat : Int) : ℚ) := by
        calc ((a.mant : Int) : ℚ) ≤ (b.mant : ℚ) * (10 : ℚ) ^ (((b.ex - a.ex).toNat : Int)) := h2
          _ = ((b.mant * 10 ^ (b.ex - a.ex).toNat : Int) : ℚ) := by push_cast [zpow_natCast]; ring
      exact_mod_cast h3

/-- Every element the reflection filter keeps has a numeric confidence at
or above the threshold. -/
theorem filterConf_sound (minC : JNum) :
    ∀ (l r : List Json), filterConf minC l = some r →
      ∀ b ∈ r, ∃ q, confKey b = some q ∧ JNum.le minC q = true := by
  intro l
  induction l with
  | nil =>
    intro r h
    simp [filterConf] at h
    subst h
    intro b hb
    cases hb
  | cons x xs ih =>
    intro r h
    unfold filterConf at h
    cases hck : confKey x with
    | none => rw [hck] at h; cases h
    | some q =>
      rw [hck] at h
      cases hf : filterConf minC xs with
      | none => rw [hf] at h; cases h
      | some r0 =>
        rw [hf] at h
        simp at h
        by_cases hle : JNum.le minC q = true
        · rw [if_pos hle] at h
          subst h
          intro b hb
          cases hb with
          | head => exact ⟨q, hck, hle⟩
          | tail _ hb0 => exact ih r0 hf b hb0
        · rw [if_neg hle] at h
          subst h
          exact ih r0 hf

/-- Appending a batch of interactions to an existing file. -/
theorem runLog_acc (is : List LogInput) (ls : List (Option Entry)) :
    runLog is (some ls) = some (ls ++ is.map (fun i => some (mkEntry i))) := by
  induction is generalizing ls with
  | nil => simp [runLog]
  | cons i is ih =>
    show runLog is (log_append (mkEntry i) (some ls)) = _
    rw [show log_append (mkEntry i) (some ls) = some (ls ++ [some (mkEntry i)]) from rfl, ih]
    simp

/-- The file after a batch of appends starting from a missing file. -/
theorem runLog_from_none (is : List LogInput) :
    (is = [] ∧ runLog is none = none) ∨
      runLog is none = some (is.map (fun i => some (mkEntry i))) := by
  cases is with
  | nil => exact Or.inl ⟨rfl, rfl⟩
  | cons i is =>
    right
    show runLog is (log_append (mkEntry i) none) = _
    rw [show log_append (mkEntry i) none = some [some (mkEntry i)] from rfl, runLog_acc]
    simp

/-- `filterMap` of a total function is `map`. -/
theorem filterMap_some_map {α β : Type} (f : α → β) (l : List α) :
    l.filterMap (fun a => some (f a)) = l.map f := by
  induction l with
  | nil => rfl
  | cons x xs ih => simp [List.filterMap_cons, ih]

/-- `l[-m:]` for a positive `m` keeps the last `m` elements. -/
theorem pySliceFrom_neg {α : Type} (m : Nat) (hm : 0 < m) (l : List α) :
    pySliceFrom (-(m : Int)) l = l.drop (l.length - m) := by
  unfold pySliceFrom
  rw [if_pos (by omega : -(m : Int) < 0)]
  congr 1
  omega


/-! ## Claim theorems -/

/-- C1 counterexample: the claim asserts that a model output that cannot
be interpreted (here the plain text `hello`) leaves the previously
persisted belief document exactly as it was, counters included.  On the
code, the reflection run with that adapter output returns an empty list
and raises nothing, but it overwrites the stored document: the belief set
of `demoDoc` is replaced by the empty set and `reflection_count` moves
from 3 to 4. -/
theorem C1_counterexample :
    _parse_beliefs ("hello") = [] ∧
    demoDoc.reflection_count = 3 ∧
    run_reflection ("hello") ("t1") default_config demoLog (some demoDoc) =
      some { beliefs := [],
             store := some { last_updated := "t1", reflection_count := 4, beliefs := [] },
             called := true } :=
  ⟨rfl, rfl, rfl⟩

/-- C1 amended: for every model output text on which the lenient parse
chain yields nothing, a Reflection run over a non-empty log returns an
empty result and raises no exception, but persists an empty belief set
with the counter incremented (exactly as if the model had returned an
empty array); a Synthesis run over a non-empty belief set whose parse
yields a falsy result returns an empty result, raises no exception, and
leaves the pattern and tension documents untouched. -/
theorem C1_amended (raw now : String) (cfg : EngineConfig) (log : LogFile)
    (bstore : Option BeliefDoc) (ps : Option PatternDoc) (ts : Option TensionDoc) :
    (_parse_beliefs raw = [] →
      (load_log (some cfg.reflection_window) log).isEmpty = false →
      run_reflection raw now cfg log bstore =
        some { beliefs := [],
               store := some (_save_beliefs [] (priorCount bstore + 1) now),
               called := true }) ∧
    (jsonTruthy (_parse_result raw) = false →
      (load_beliefs bstore).isEmpty = false →
      run_synthesis raw now cfg log bstore ps ts =
        some { result := Json.obj [], pstore := ps, tstore := ts, called := true }) := by
  constructor
  · intro hp hne
    unfold run_reflection
    rw [hne, hp]
    simp [filterConf]
  · intro ht hb
    unfold run_synthesis
    rw [hb]
    simp [ht]

/-- C1 amended, evaluated: with adapter output `hello`, a one-record log
and a stored document with counter 3, reflection persists the empty set at
counter 4 and synthesis changes nothing. -/
theorem C1_amended_witness :
    run_reflection ("hello") ("t2") default_config demoLog (some demoDoc) =
      some { beliefs := [],
             store := some (_save_beliefs [] (priorCount (some demoDoc) + 1) ("t2")),
             called := true } ∧
    run_synthesis ("hello") ("t2") default_config demoLog (some demoDoc) none none =
      some { result := Json.obj [], pstore := none, tstore := none, called := true } :=
  ⟨(C1_amended ("hello") ("t2") default_config demoLog (some demoDoc) none none).1 rfl rfl,
   (C1_amended ("hello") ("t2") default_config demoLog (some demoDoc) none none).2 rfl rfl⟩

/-- C2: every reflection run over a non-empty log that returns normally
persists a belief document in which every belief object carries a numeric
confidence value at least the configured minimum, and whose stored
`reflection_count` is the previously stored count (0 when no document
existed) plus one. -/
theorem C2_reflection_invariant (raw now : String) (cfg : EngineConfig) (log : LogFile)
    (store : Option BeliefDoc) (out : ReflectOut)
    (hrun : run_reflection raw now cfg log store = some out)
    (hne : (load_log (some cfg.reflection_window) log).isEmpty = false) :
    ∃ d, out.store = some d ∧ d.reflection_count = priorCount store + 1 ∧
      ∀ b ∈ d.beliefs, ∃ q, confKey b = some q ∧
        cfg.min_belief_confidence.toRat ≤ q.toRat := by
  unfold run_reflection at hrun
  rw [hne] at hrun
  simp at hrun
  cases hf : filterConf cfg.min_belief_confidence (_parse_beliefs raw) with
  | none => rw [hf] at hrun; cases hrun
  | some filtered =>
    rw [hf] at hrun
    simp at hrun
    refine ⟨_save_beliefs filtered (priorCount store + 1) now, ?_, rfl, ?_⟩
    · rw [← hrun]
    · intro b hb
      obtain ⟨q, hq, hle⟩ := filterConf_sound cfg.min_belief_confidence _ _ hf b hb
      exact ⟨q, hq, (jnum_le_iff _ _).mp hle⟩

/-- C2, evaluated: a run over the one-record log with a parseable model
output of one belief at confidence 0.8 persists exactly that belief at
counter 0 + 1. -/
theorem C2_witness : ∃ d,
    (ReflectOut.mk [demoBelief]
      (some (BeliefDoc.mk ("t1") 1 [demoBelief])) true).store = some d ∧
    d.reflection_count = priorCount none + 1 ∧
    ∀ b ∈ d.beliefs, ∃ q, confKey b = some q ∧
      default_config.min_belief_confidence.toRat ≤ q.toRat :=
  C2_reflection_invariant rawBeliefsOk ("t1") default_config demoLog none
    (ReflectOut.mk [demoBelief] (some (BeliefDoc.mk ("t1") 1 [demoBelief])) true)
    rfl rfl

/-- C3: starting from a log that has never been created, any sequence of
`log_interaction` calls is loaded back in exactly the order appended,
`log_count` equals the number of appends, loading a never-created log is
empty for every limit, and a positive limit `m` returns exactly the last
`min m n` records, still oldest first. -/
theorem C3_log_roundtrip (is : List LogInput) (k : Option Int) (m : Nat) :
    load_log none (runLog is none) = is.map mkEntry ∧
    log_count (runLog is none) = is.length ∧
    load_log k none = [] ∧
    (0 < m → load_log (some (m : Int)) (runLog is none) =
      (is.map mkEntry).drop (is.length - m)) := by
  have hfile := runLog_from_none is
  have hfm : (is.map (fun i => some (mkEntry i))).filterMap id = is.map mkEntry := by
    rw [List.filterMap_map]
    exact filterMap_some_map mkEntry is
  refine ⟨?_, ?_, rfl, ?_⟩
  · rcases hfile with ⟨hnil, hrl⟩ | hrl
    · subst hnil; rw [hrl]; rfl
    · rw [hrl]
      show (is.map (fun i => some (mkEntry i))).filterMap id = is.map mkEntry
      exact hfm
  · rcases hfile with ⟨hnil, hrl⟩ | hrl
    · subst hnil; rw [hrl]; rfl
    · rw [hrl]
      show ((is.map (fun i => some (mkEntry i))).filterMap id).length = is.length
      rw [hfm, List.length_map]
  · intro hm
    rcases hfile with ⟨hnil, hrl⟩ | hrl
    · subst hnil; rw [hrl]; simp [load_log]
    · rw [hrl]
      show (if (m : Int) = 0 then _ else pySliceFrom (-(m : Int)) _) = _
      rw [if_neg (by omega : ¬ (m : Int) = 0)]
      rw [hfm, pySliceFrom_neg m hm]
      simp

/-- C3, evaluated: two concrete appends, loaded back in order, counted,
and cut to the most recent record by limit 1. -/
theorem C3_witness :
    (0 : Nat) < 1 ∧
    load_log (some ((1 : Nat) : Int))
        (runLog [⟨"e1", "t1", "hi", "yo", none⟩, ⟨"e2", "t2", "ok", "fine", none⟩] none) =
      (([⟨"e1", "t1", "hi", "yo", none⟩, ⟨"e2", "t2", "ok", "fine", none⟩] :
        List LogInput).map mkEntry).drop 1 :=
  ⟨by decide,
   (C3_log_roundtrip [⟨"e1", "t1", "hi", "yo", none⟩, ⟨"e2", "t2", "ok", "fine", none⟩]
     none 1).2.2.2 (by decide)⟩

/-- C4: the confidence score depends on the answer only, equals the
clamped hedging formula of the source (base 0.85, 0.08 per hedge
occurrence, 0.05 well-formedness bonus for a word count strictly between
50 and 600, clamped to [0.30, 0.95]; values in exact hundredths, the final
two-decimal rounding being the identity on them), and always lies within
[0.30, 0.95]. -/
theorem C4_confidence_formula (q1 q2 a : String) :
    _score_confidence q1 a = _score_confidence q2 a ∧
    _score_confidence q1 a =
      max 30 (min 95 (85 - 8 * (countHedges a : Int) +
        (if lengthOkB a then 5 else 0))) ∧
    30 ≤ _score_confidence q1 a ∧ _score_confidence q1 a ≤ 95 :=
  ⟨rfl, rfl, le_max_left _ _, max_le (by norm_num) (min_le_left _ _)⟩

/-- C5 counterexample: tag derivation is not order-independent across the
question/answer concatenation.  With question `i want` and answer `to x`,
the concatenation `question + " " + answer` contains `want to` and earns
the `goal` tag; the reversed concatenation does not, so the two label sets
differ. -/
theorem C5_counterexample :
    "goal" ∈ _auto_tag ("i want" ++ " " ++ "to x") ∧
    "goal" ∉ _auto_tag ("to x" ++ " " ++ "i want") ∧
    _auto_tag ("i want" ++ " " ++ "to x") ≠ _auto_tag ("to x" ++ " " ++ "i want") := by
  refine ⟨by decide, by decide, by decide⟩

/-- C5 amended: tag derivation is deterministic — it depends only on the
case-folded input text, so any two texts with the same lower-casing yield
the same label list — but it is not order-independent across the
question/answer concatenation, since multi-word patterns can match across
the junction in one order only. -/
theorem C5_amended (s t : String) (h : pyLower s = pyLower t) :
    _auto_tag s = _auto_tag t := by
  unfold _auto_tag
  rw [h]

/-- C5 amended, evaluated on a concrete case-variant pair. -/
theorem C5_amended_witness :
    pyLower ("Docker rocks") = pyLower ("docker ROCKS") ∧
    _auto_tag ("Docker rocks") = _auto_tag ("docker ROCKS") :=
  ⟨by decide, C5_amended ("Docker rocks") ("docker ROCKS") (by decide)⟩

/-- C6: when the stored belief set is empty (document absent or holding no
beliefs), a synthesis run returns the empty result, does not invoke the
model adapter, and writes neither the pattern nor the tension document. -/
theorem C6_synthesis_aborts (raw now : String) (cfg : EngineConfig) (log : LogFile)
    (bstore : Option BeliefDoc) (ps : Option PatternDoc) (ts : Option TensionDoc)
    (h : (load_beliefs bstore).isEmpty = true) :
    run_synthesis raw now cfg log bstore ps ts =
      some { result := Json.obj [], pstore := ps, tstore := ts, called := false } := by
  unfold run_synthesis
  rw [h]
  simp

/-- C6, evaluated with no belief document at all. -/
theorem C6_witness :
    run_synthesis ("anything") ("t1") default_config demoLog none none none =
      some { result := Json.obj [], pstore := none, tstore := none, called := false } :=
  C6_synthesis_aborts ("anything") ("t1") default_config demoLog none none none rfl

/-- C7: holding the word-count bonus fixed, the confidence score is
non-increasing in the number of hedging-word occurrences in the answer. -/
theorem C7_hedge_monotone (q a1 a2 : String)
    (hh : countHedges a1 ≤ countHedges a2) (hl : lengthOkB a1 = lengthOkB a2) :
    _score_confidence q a2 ≤ _score_confidence q a1 := by
  unfold _score_confidence
  rw [← hl]
  apply max_le_max (le_refl _)
  apply min_le_min (le_refl _)
  have hc : (countHedges a1 : Int) ≤ (countHedges a2 : Int) := by exact_mod_cast hh
  omega

/-- C7, evaluated: one more hedge (`maybe`) with the bonus unchanged can
only lower the score. -/
theorem C7_witness :
    countHedges ("fine") ≤ countHedges ("maybe") ∧
    lengthOkB ("fine") = lengthOkB ("maybe") ∧
    _score_confidence ("q") ("maybe") ≤ _score_confidence ("q") ("fine") :=
  ⟨by decide, by decide, C7_hedge_monotone ("q") ("fine") ("maybe") (by decide) (by decide)⟩

/-- C8: the context formatters are pure functions of the persisted store
contents (repeated calls on equal state are identical), an empty belief
set renders as the empty string, an empty cognitive-pattern set renders as
the empty string, and the descending-confidence sort both formatters use
returns a permutation of its input ordered by non-increasing confidence
value. -/
theorem C8_formatters (store : Option BeliefDoc) (ps : Option PatternDoc)
    (ts : Option TensionDoc) (bs l : List Json) :
    (load_beliefs store = [] → format_belief_block none store = some ("")) ∧
    (jsonTruthy (load_patterns ps).cognitive_patterns = false →
      format_cognitive_block ps ts = some ("")) ∧
    (format_belief_block none store = format_belief_block none store ∧
      format_cognitive_block ps ts = format_cognitive_block ps ts) ∧
    (sortDescByConf bs = some l →
      l.Pairwise (fun a b => (confD b).toRat ≤ (confD a).toRat) ∧ l.Perm bs) := by
  refine ⟨?_, ?_, ⟨rfl, rfl⟩, ?_⟩
  · intro h
    unfold format_belief_block
    rw [h]
    rfl
  · intro h
    simp [format_cognitive_block, h]
  · intro h
    unfold sortDescByConf at h
    by_cases hall : bs.all (fun b => (confKey b).isSome) = true
    · rw [if_pos hall] at h
      have hl : l = List.insertionSort
          (fun a b => JNum.le (confD b) (confD a) = true) bs := by
        cases h; rfl
      subst hl
      haveI : IsTotal Json (fun a b => JNum.le (confD b) (confD a) = true) :=
        ⟨fun a b => by
          rcases le_total (confD b).toRat (confD a).toRat with hle | hle
          · exact Or.inl ((jnum_le_iff _ _).mpr hle)
          · exact Or.inr ((jnum_le_iff _ _).mpr hle)⟩
      haveI : IsTrans Json (fun a b => JNum.le (confD b) (confD a) = true) :=
        ⟨fun a b c hab hbc => (jnum_le_iff _ _).mpr
          (le_trans ((jnum_le_iff _ _).mp hbc) ((jnum_le_iff _ _).mp hab))⟩
      constructor
      · exact (List.sorted_insertionSort _ bs).imp (fun hab => (jnum_le_iff _ _).mp hab)
      · exact List.perm_insertionSort _ bs
    · rw [if_neg hall] at h
      cases h

/-- C8, evaluated: empty stores render as empty strings, and the sort of a
concrete singleton is that singleton in descending order. -/
theorem C8_witness :
    format_belief_block none none = some ("") ∧
    format_cognitive_block none none = some ("") ∧
    ([demoBelief].Pairwise (fun a b => (confD b).toRat ≤ (confD a).toRat) ∧
      ([demoBelief] : List Json).Perm [demoBelief]) := by
  have h := C8_formatters none none none [demoBelief] [demoBelief]
  exact ⟨h.1 rfl, h.2.1 rfl, h.2.2.2 rfl⟩

/-- C9: a `log_interaction` call returning entry `e` leaves every earlier
record unchanged and in place, with `e` appended as the new last record of
`load_log`. -/
theorem C9_append_roundtrip (i : LogInput) (f : LogFile) :
    load_log none ((log_interaction i f).2) =
      load_log none f ++ [(log_interaction i f).1] ∧
    (load_log none ((log_interaction i f).2)).getLast? =
      some ((log_interaction i f).1) := by
  have h1 : load_log none ((log_interaction i f).2) =
      load_log none f ++ [mkEntry i] := by
    cases f with
    | none => rfl
    | some ls => simp [log_interaction, log_append, load_log, List.filterMap_append]
  exact ⟨h1, by rw [h1]; exact List.getLast?_concat _⟩

/-- C10: a limit of zero is falsy in `entries[-n:] if n else entries`, so
`load_log` with limit 0 on an existing non-empty log returns all records,
not the empty sequence. -/
theorem C10_zero_limit (ls : List (Option Entry))
    (h : (load_log none (some ls)).isEmpty = false) :
    load_log (some 0) (some ls) = load_log none (some ls) ∧
    (load_log (some 0) (some ls)).isEmpty = false := by
  have he : load_log (some 0) (some ls) = load_log none (some ls) := by
    simp [load_log]
  exact ⟨he, by rw [he]; exact h⟩

/-- C10, evaluated on the one-record log. -/
theorem C10_witness :
    load_log (some 0) (some [some demoEntry]) =
      load_log none (some [some demoEntry]) ∧
    (load_log (some 0) (some [some demoEntry])).isEmpty = false :=
  C10_zero_limit [some demoEntry] (by decide)
